import Mathlib

/-!
Verification development for the Vatu chess engine sources.

The repository snapshot mixes two generations of the engine:

* a bitboard generation (board.rs, movement.rs, castling.rs, stats.rs,
  analysis.rs), embedded below in namespace `BB`;
* an older mailbox generation (rules.rs, engine.rs, fen.rs), embedded in
  namespace `MB`.

Support code referenced by the sources but absent from the snapshot (the
precomputed.rs attack tables and the mailbox-era board module) is modelled
from the specification; every such definition carries a doc comment starting
with `Modelled from the spec:`.

Rust functions that can panic are embedded as `Option`-returning functions
(`none` models the panic).  Unsigned 64-bit and 8-bit integers are modelled
as `Nat` with their bitwise operations (the operations the code performs
never exceed the modelled width); `i8`/`i32` quantities are modelled as
`Int`, with explicit wrapping where an overflow could be observed.
-/

set_option maxRecDepth 4000
set_option exponentiation.threshold 1024
set_option linter.unreachableTactic false
set_option linter.unusedTactic false

namespace Vatu

/-- Bitboard type from board.rs: an unsigned 64-bit integer, modelled as `Nat`. -/
abbrev Bitboard := Nat

/-- Complement of a 64-bit word, as written `!x` on `u64` in Rust. -/
def not64 (x : Nat) : Nat := x ^^^ 0xFFFFFFFFFFFFFFFF

/-- Complement of an 8-bit word, as written `!x` on `u8` in Rust. -/
def not8 (x : Nat) : Nat := x ^^^ 0xFF

namespace BB

/-- Color type from board.rs (usize, 0 or 1). -/
abbrev Color := Nat

def WHITE : Color := 0
def BLACK : Color := 1

/-- board.rs `opposite`: get opposite color (`color ^ 1`). -/
def opposite (color : Color) : Color := color ^^^ 1

/-- Piece type from board.rs (usize index into the piece bitboards). -/
abbrev Piece := Nat

def PAWN : Piece := 0
def BISHOP : Piece := 1
def KNIGHT : Piece := 2
def ROOK : Piece := 3
def QUEEN : Piece := 4
def KING : Piece := 5

/-- Square type from board.rs: `i8` coordinates `file*8 + rank`, modelled as `Int`. -/
abbrev Square := Int

/-- board.rs `sq`: square from file and rank. -/
def sqOf (file rank : Int) : Square := file * 8 + rank

/-- board.rs `sq_file`: `square / 8` (Rust `i8` division truncates toward zero). -/
def sq_file (square : Square) : Int := square.tdiv 8

/-- board.rs `sq_rank`: `square % 8` (Rust `i8` remainder, sign of the dividend). -/
def sq_rank (square : Square) : Int := square.tmod 8

/-- board.rs `bit_pos`: bit mask `1 << square`.  Rust panics when `square` is
negative; all call sites pass squares in `[0, 64)`, where `toNat` is exact. -/
def bit_pos (square : Square) : Bitboard := 1 <<< square.toNat

-- Square constants from the missing precomputed.rs.
/-- Modelled from the spec: square constants (`A1=0, A2=1, …, H8=63`) provided
by the missing precomputed.rs module. -/
def A1 : Square := 0
def A8 : Square := 7
def B1 : Square := 8
def C1 : Square := 16
def C8 : Square := 23
def D1 : Square := 24
def D4 : Square := 27
def D6 : Square := 29
def D8 : Square := 31
def E1 : Square := 32
def E8 : Square := 39
def F1 : Square := 40
def F8 : Square := 47
def G1 : Square := 48
def G8 : Square := 55
def H1 : Square := 56
def H8 : Square := 63

-- Castling flags from castling.rs.
def CASTLE_WH_K : Nat := 0b00000001
def CASTLE_WH_Q : Nat := 0b00000010
def CASTLE_WH_MASK : Nat := 0b00000011
def CASTLE_BL_K : Nat := 0b00000100
def CASTLE_BL_Q : Nat := 0b00001000
def CASTLE_BL_MASK : Nat := 0b00001100
def CASTLE_K_MASK : Nat := 0b00000101
def CASTLE_Q_MASK : Nat := 0b00001010
def CASTLE_MASK : Nat := 0b00001111

/-- castling.rs `CASTLE_MASK_BY_COLOR`. -/
def CASTLE_MASK_BY_COLOR : List Nat := [CASTLE_WH_MASK, CASTLE_BL_MASK]

/-- castling.rs `CASTLE_LEGALITY_PATHS`: squares that must not be attacked,
indexed by color then side (king side first). -/
def CASTLE_LEGALITY_PATHS : List (List Bitboard) :=
  [[0x0001010100000000, 0x0000000101010000],
   [0x0080808000000000, 0x0000008080800000]]

/-- castling.rs `CASTLE_MOVE_PATHS`: squares that must be empty, indexed by
color then side (king side first). -/
def CASTLE_MOVE_PATHS : List (List Bitboard) :=
  [[0x0001010000000000, 0x0000000001010100],
   [0x0080800000000000, 0x0000000080808000]]

/-- Game state record from rules.rs, as used by the bitboard generation
(movement.rs, stats.rs, analysis.rs): side to move, castling availability,
en-passant square, halfmove clock and fullmove number. -/
structure GameState where
  color : Color
  castling : Nat
  en_passant : Option Square
  halfmove : Int
  fullmove : Int
deriving DecidableEq, Repr

/-- rules.rs `GameState::new`. -/
def GameState.new : GameState :=
  { color := WHITE, castling := CASTLE_MASK, en_passant := none,
    halfmove := 0, fullmove := 1 }

/-- Board representation from board.rs: two color bitboards and six piece
bitboards (`colors` indexed by `WHITE`/`BLACK`, `pieces` by the piece tags). -/
structure Board where
  colors : List Bitboard
  pieces : List Bitboard
deriving DecidableEq, Repr

/-- Index into the `colors` array, as `self.colors[color]`. -/
def Board.colorsGet (b : Board) (color : Color) : Bitboard := b.colors.getD color 0

/-- Index into the `pieces` array, as `self.pieces[piece]`. -/
def Board.piecesGet (b : Board) (piece : Piece) : Bitboard := b.pieces.getD piece 0

/-- board.rs `Board::new`: the starting position. -/
def Board.new : Board :=
  { colors := [0x0303030303030303, 0xC0C0C0C0C0C0C0C0],
    pieces := [0x4242424242424242, 0x0000810000810000, 0x0081000000008100,
               0x8100000000000081, 0x0000000081000000, 0x0000008100000000] }

/-- board.rs `Board::new_empty`. -/
def Board.new_empty : Board :=
  { colors := [0, 0], pieces := [0, 0, 0, 0, 0, 0] }

/-- board.rs `Board::combined`. -/
def Board.combined (b : Board) : Bitboard := b.colorsGet WHITE ||| b.colorsGet BLACK

/-- board.rs `Board::by_color`. -/
def Board.by_color (b : Board) (color : Color) : Bitboard := b.colorsGet color

/-- board.rs `Board::by_piece`. -/
def Board.by_piece (b : Board) (piece : Piece) : Bitboard := b.piecesGet piece

/-- board.rs `Board::by_color_and_piece`. -/
def Board.by_color_and_piece (b : Board) (color : Color) (piece : Piece) : Bitboard :=
  b.by_color color &&& b.by_piece piece

/-- board.rs `Board::is_empty`. -/
def Board.is_empty (b : Board) (square : Square) : Bool :=
  b.combined &&& bit_pos square == 0

/-- board.rs `Board::get_color_on`; panics (here `none`) on an empty square. -/
def Board.get_color_on (b : Board) (square : Square) : Option Color :=
  let bp := bit_pos square
  if b.colorsGet WHITE &&& bp ≠ 0 then some WHITE
  else if b.colorsGet BLACK &&& bp ≠ 0 then some BLACK
  else none

/-- board.rs `Board::get_piece_on`; panics (here `none`) on an empty square. -/
def Board.get_piece_on (b : Board) (square : Square) : Option Piece :=
  let bp := bit_pos square
  if b.piecesGet PAWN &&& bp ≠ 0 then some PAWN
  else if b.piecesGet BISHOP &&& bp ≠ 0 then some BISHOP
  else if b.piecesGet KNIGHT &&& bp ≠ 0 then some KNIGHT
  else if b.piecesGet ROOK &&& bp ≠ 0 then some ROOK
  else if b.piecesGet QUEEN &&& bp ≠ 0 then some QUEEN
  else if b.piecesGet KING &&& bp ≠ 0 then some KING
  else none

/-- board.rs `Board::set_square`: set color and piece bit, clear the opposite
color bit, but not any previous piece bit. -/
def Board.set_square (b : Board) (square : Square) (color : Color) (piece : Piece) : Board :=
  let bp := bit_pos square
  let b := { b with colors := b.colors.set color (b.colorsGet color ||| bp) }
  let b := { b with colors := b.colors.set (opposite color) (b.colorsGet (opposite color) &&& not64 bp) }
  { b with pieces := b.pieces.set piece (b.piecesGet piece ||| bp) }

/-- board.rs `Board::clear_square`: clear both the color and the piece bit. -/
def Board.clear_square (b : Board) (square : Square) (color : Color) (piece : Piece) : Board :=
  let bp := bit_pos square
  let b := { b with colors := b.colors.set color (b.colorsGet color &&& not64 bp) }
  { b with pieces := b.pieces.set piece (b.piecesGet piece &&& not64 bp) }

/-- board.rs `Board::move_square`: move the piece at `source` to `dest`,
clearing `source` and any piece previously on `dest`. -/
def Board.move_square (b : Board) (source dest : Square) : Option Board := do
  let source_color ← b.get_color_on source
  let source_piece ← b.get_piece_on source
  let b := b.clear_square source source_color source_piece
  let b ←
    if b.is_empty dest then some b
    else do
      let dest_color ← b.get_color_on dest
      let dest_piece ← b.get_piece_on dest
      some (b.clear_square dest dest_color dest_piece)
  some (b.set_square dest source_color source_piece)

/-- board.rs `Board::set_piece`: swap one piece bit for another at a square. -/
def Board.set_piece (b : Board) (square : Square) (from_piece to_piece : Piece) : Board :=
  let bp := bit_pos square
  let b := { b with pieces := b.pieces.set from_piece (b.piecesGet from_piece &&& not64 bp) }
  { b with pieces := b.pieces.set to_piece (b.piecesGet to_piece ||| bp) }

/-- board.rs `Board::find_king`: first square (in `0..64` order) holding this
color's king. -/
def Board.find_king (b : Board) (color : Color) : Option Square :=
  let king_bb := b.colorsGet color &&& b.piecesGet KING
  ((List.range 64).find? (fun s => king_bb &&& bit_pos (Int.ofNat s) != 0)).map Int.ofNat

/-- Helper for board.rs `Board::new_from_fen`: process the placement characters
left to right; an unrecognized character stops the scan (the Rust `break`). -/
def new_from_fen_go : Board → Int → Int → List Char → Board
  | b, _, _, [] => b
  | b, f, r, c :: rest =>
    if c = 'r' then new_from_fen_go (b.set_square (sqOf f r) BLACK ROOK) (f + 1) r rest
    else if c = 'n' then new_from_fen_go (b.set_square (sqOf f r) BLACK KNIGHT) (f + 1) r rest
    else if c = 'b' then new_from_fen_go (b.set_square (sqOf f r) BLACK BISHOP) (f + 1) r rest
    else if c = 'q' then new_from_fen_go (b.set_square (sqOf f r) BLACK QUEEN) (f + 1) r rest
    else if c = 'k' then new_from_fen_go (b.set_square (sqOf f r) BLACK KING) (f + 1) r rest
    else if c = 'p' then new_from_fen_go (b.set_square (sqOf f r) BLACK PAWN) (f + 1) r rest
    else if c = 'R' then new_from_fen_go (b.set_square (sqOf f r) WHITE ROOK) (f + 1) r rest
    else if c = 'N' then new_from_fen_go (b.set_square (sqOf f r) WHITE KNIGHT) (f + 1) r rest
    else if c = 'B' then new_from_fen_go (b.set_square (sqOf f r) WHITE BISHOP) (f + 1) r rest
    else if c = 'Q' then new_from_fen_go (b.set_square (sqOf f r) WHITE QUEEN) (f + 1) r rest
    else if c = 'K' then new_from_fen_go (b.set_square (sqOf f r) WHITE KING) (f + 1) r rest
    else if c = 'P' then new_from_fen_go (b.set_square (sqOf f r) WHITE PAWN) (f + 1) r rest
    else if c = '/' then new_from_fen_go b 0 (r - 1) rest
    else if c.isDigit then new_from_fen_go b (f + Int.ofNat (c.toNat - 48)) r rest
    else b

/-- board.rs `Board::new_from_fen`: build a board from a FEN placement field. -/
def Board.new_from_fen (fen : String) : Board :=
  new_from_fen_go Board.new_empty 0 7 fen.toList

/-- Move record from movement.rs: source and destination squares, optional
promotion piece, captured piece (filled on apply) and the castling flags saved
when the move is applied. -/
structure Move where
  source : Square
  dest : Square
  promotion : Option Piece
  capture : Option Piece
  old_castles : Nat
deriving DecidableEq, Repr

/-- movement.rs `Move::new`. -/
def Move.new (source dest : Square) : Move :=
  { source := source, dest := dest, promotion := none, capture := none, old_castles := 0 }

/-- movement.rs `Move::new_promotion`. -/
def Move.new_promotion (source dest : Square) (promotion : Piece) : Move :=
  { source := source, dest := dest, promotion := some promotion, capture := none,
    old_castles := 0 }

/-- movement.rs `Move::get_castle`: recognize a castle purely from the
source/destination pair. -/
def Move.get_castle (m : Move) : Option Nat :=
  if m.source = E1 ∧ m.dest = C1 then some CASTLE_WH_Q
  else if m.source = E1 ∧ m.dest = G1 then some CASTLE_WH_K
  else if m.source = E8 ∧ m.dest = C8 then some CASTLE_BL_Q
  else if m.source = E8 ∧ m.dest = G8 then some CASTLE_BL_K
  else none

/-- movement.rs `Move::get_castle_move`; panics (`none`) on an unknown flag. -/
def Move.get_castle_move (castle : Nat) : Option Move :=
  if castle = CASTLE_WH_Q then some (Move.new E1 C1)
  else if castle = CASTLE_WH_K then some (Move.new E1 G1)
  else if castle = CASTLE_BL_Q then some (Move.new E8 C8)
  else if castle = CASTLE_BL_K then some (Move.new E8 G8)
  else none

/-- movement.rs `Move::apply_to_board`: board effect of the move.  A king move
matching a castle pattern moves king and rook; otherwise record any capture,
move source to destination and apply the promotion.  Returns the updated move
(whose `capture` field may have been filled) and the updated board. -/
def Move.apply_to_board (m : Move) (b : Board) : Option (Move × Board) := do
  let piece ← b.get_piece_on m.source
  match (if piece = KING then m.get_castle else none) with
  | some castle =>
    if castle = CASTLE_WH_K then do
      let b ← b.move_square E1 G1
      let b ← b.move_square H1 F1
      some (m, b)
    else if castle = CASTLE_WH_Q then do
      let b ← b.move_square E1 C1
      let b ← b.move_square A1 D1
      some (m, b)
    else if castle = CASTLE_BL_K then do
      let b ← b.move_square E8 G8
      let b ← b.move_square H8 F8
      some (m, b)
    else if castle = CASTLE_BL_Q then do
      let b ← b.move_square E8 C8
      let b ← b.move_square A8 D8
      some (m, b)
    else none
  | none => do
    let m ←
      if ¬ b.is_empty m.dest then
        (b.get_piece_on m.dest).map (fun p => { m with capture := some p })
      else
        some m
    let b ← b.move_square m.source m.dest
    let b :=
      match m.promotion with
      | some piece => b.set_piece m.dest PAWN piece
      | none => b
    some (m, b)

/-- movement.rs `Move::apply_to`: save the castling flags into the move,
update the castling rights from the source/destination squares (note the
else-if chains), apply the move to the board, and flip the side to move. -/
def Move.apply_to (m : Move) (b : Board) (gs : GameState) :
    Option (Move × Board × GameState) :=
  let m := { m with old_castles := gs.castling }
  let castling := gs.castling
  let castling :=
    if m.source = E1 then castling &&& not8 CASTLE_WH_MASK
    else if m.source = E8 then castling &&& not8 CASTLE_BL_MASK
    else castling
  let castling :=
    if m.source = A1 ∨ m.dest = A1 then castling &&& not8 CASTLE_WH_Q
    else if m.source = H1 ∨ m.dest = H1 then castling &&& not8 CASTLE_WH_K
    else if m.source = A8 ∨ m.dest = A8 then castling &&& not8 CASTLE_BL_Q
    else if m.source = H8 ∨ m.dest = H8 then castling &&& not8 CASTLE_BL_K
    else castling
  let gs := { gs with castling := castling }
  match m.apply_to_board b with
  | none => none
  | some (m, b) => some (m, b, { gs with color := opposite gs.color })

/-- movement.rs `Move::unmake`: the castle pattern is recognized from the
source/destination pair alone (without checking which piece moved); otherwise
move the piece back, undo the promotion and restore the captured piece, then
restore the saved castling flags and flip the side to move back. -/
def Move.unmake (m : Move) (b : Board) (gs : GameState) : Option (Board × GameState) := do
  let b ←
    match m.get_castle with
    | some castle =>
      if castle = CASTLE_WH_K then do
        let b ← b.move_square G1 E1
        b.move_square F1 H1
      else if castle = CASTLE_WH_Q then do
        let b ← b.move_square C1 E1
        b.move_square D1 A1
      else if castle = CASTLE_BL_K then do
        let b ← b.move_square G8 E8
        b.move_square F8 H8
      else if castle = CASTLE_BL_Q then do
        let b ← b.move_square C8 E8
        b.move_square D8 A8
      else none
    | none => do
      let b ← b.move_square m.dest m.source
      let b :=
        match m.promotion with
        | some piece => b.set_piece m.source piece PAWN
        | none => b
      let b :=
        match m.capture with
        | some piece => b.set_square m.dest gs.color piece
        | none => b
      some b
  some (b, { gs with castling := m.old_castles, color := opposite gs.color })

/-- movement.rs `Move::to_uci_string`, at the byte level: two squares and an
optional promotion letter.  Promotion to a piece other than queen, bishop,
knight or rook panics (`none`). -/
def Move.to_uci_bytes (m : Move) : Option (List Int) := do
  let src := [sq_file m.source + 0x61, sq_rank m.source + 0x31]
  let dst := [sq_file m.dest + 0x61, sq_rank m.dest + 0x31]
  let promo ←
    match m.promotion with
    | some piece =>
      if piece = QUEEN then some [(0x71 : Int)]
      else if piece = BISHOP then some [(0x62 : Int)]
      else if piece = KNIGHT then some [(0x6E : Int)]
      else if piece = ROOK then some [(0x72 : Int)]
      else none
    | none => some []
  some (src ++ dst ++ promo)

/-- movement.rs `Move::from_uci_string`, at the byte level: parse the two
squares (`file = byte - 0x61`, `rank = byte - 0x31`); a promotion letter is
read only when the string has exactly five characters; fewer than four
characters or an unknown promotion letter panics (`none`). -/
def Move.from_uci_bytes (bytes : List Int) : Option Move :=
  match bytes with
  | b0 :: b1 :: b2 :: b3 :: rest => do
    let promotion ←
      if rest.length = 1 then
        match rest.headD 0 with
        | 0x62 => some (some BISHOP)
        | 0x6E => some (some KNIGHT)
        | 0x72 => some (some ROOK)
        | 0x71 => some (some QUEEN)
        | _ => none
      else
        some none
    some { source := (b0 - 0x61) * 8 + (b1 - 0x31),
           dest := (b2 - 0x61) * 8 + (b3 - 0x31),
           promotion := promotion, capture := none, old_castles := 0 }
  | _ => none

/-- Board used for claim C1: reached from the starting position by
1.Nf3 a6 2.e3 b6 3.Be2 c6 4.Kf1 d6 5.g3 e6 6.Kg2 f6 7.Qe1 g6 — the white
queen now stands on e1 with f1 and g1 empty, so 8.Qg1 is a legal move. -/
def queenOnE1Board : Board :=
  Board.new_from_fen ("rnbqkbnr/7p/ppppppp1/8/8/4PNP1/PPPPBPKP/RNB1Q2R")

/-- Game state for claim C1's position: white to move, white castling rights
gone (the king moved), black's intact. -/
def queenOnE1State : GameState :=
  { color := WHITE, castling := CASTLE_BL_MASK, en_passant := none,
    halfmove := 0, fullmove := 8 }

/-- Board used for claim C5: white rook a1, black rook a8, nothing else. -/
def rookCornersBoard : Board :=
  (Board.new_empty.set_square A1 WHITE ROOK).set_square A8 BLACK ROOK

/-- Move used for claim C8's counterexample: a1 to d4 with a recorded capture,
as every capturing move carries after it has been applied. -/
def capturedPawnMove : Move :=
  { source := A1, dest := D4, promotion := none, capture := some PAWN,
    old_castles := 0 }

/-- Result move of applying a1a8 to `rookCornersBoard` (used by a witness). -/
def rookCornersMoveApplied : Move :=
  { source := 0, dest := 7, promotion := none, capture := some 3, old_castles := 15 }

/-- Result board of applying a1a8 to `rookCornersBoard` (used by a witness). -/
def rookCornersBoardApplied : Board :=
  { colors := [128, 0], pieces := [0, 0, 0, 128, 0, 0] }

/-- Result game state of applying a1a8 to `rookCornersBoard` (used by a witness). -/
def rookCornersStateApplied : GameState :=
  { color := 1, castling := 13, en_passant := none, halfmove := 0, fullmove := 1 }

-- Precomputed tables (missing precomputed.rs), modelled from spec section 4.1.

/-- Destination bitboard of a set of (file, rank) offsets from a square,
keeping only on-board destinations. -/
def rayFromOffsets (offsets : List (Int × Int)) (square : Nat) : Bitboard :=
  offsets.foldl (fun bb offset =>
    let f : Int := (square / 8 : Nat)
    let r : Int := (square % 8 : Nat)
    let nf := f + offset.1
    let nr := r + offset.2
    if 0 ≤ nf ∧ nf ≤ 7 ∧ 0 ≤ nr ∧ nr ≤ 7 then bb ||| (1 <<< (nf * 8 + nr).toNat)
    else bb) 0

/-- Modelled from the spec: `KNIGHT_RAYS[64]` of the missing precomputed.rs —
the up-to-8 knight destinations from each square. -/
def KNIGHT_RAYS (square : Nat) : Bitboard :=
  rayFromOffsets [(1, 2), (2, 1), (2, -1), (1, -2), (-1, -2), (-2, -1), (-2, 1), (-1, 2)] square

/-- Modelled from the spec: `KING_RAYS[64]` of the missing precomputed.rs —
the up-to-8 king destinations from each square. -/
def KING_RAYS (square : Nat) : Bitboard :=
  rayFromOffsets [(1, 0), (1, 1), (0, 1), (-1, 1), (-1, 0), (-1, -1), (0, -1), (1, -1)] square

/-- Modelled from the spec: `PAWN_CAPTURES[2][64]` of the missing
precomputed.rs — diagonal attacks by color and square, regardless of
occupancy. -/
def PAWN_CAPTURES (color : Color) (square : Nat) : Bitboard :=
  if color = WHITE then rayFromOffsets [(-1, 1), (1, 1)] square
  else rayFromOffsets [(-1, -1), (1, -1)] square

/-- Modelled from the spec: `PAWN_PROGRESSES[2][64]` of the missing
precomputed.rs — forward push squares by color, including the double push
from the starting rank. -/
def PAWN_PROGRESSES (color : Color) (square : Nat) : Bitboard :=
  if color = WHITE then
    rayFromOffsets (if square % 8 = 1 then [(0, 1), (0, 2)] else [(0, 1)]) square
  else
    rayFromOffsets (if square % 8 = 6 then [(0, -1), (0, -2)] else [(0, -1)]) square

-- Ray generation from board.rs.

/-- board.rs `Board::get_pawn_progresses`: table pushes restricted to empty
squares, with the double push masked out when the single-push square is
occupied. -/
def Board.get_pawn_progresses (b : Board) (square : Square) (color : Color) : Bitboard :=
  let progress_bb := PAWN_PROGRESSES color square.toNat &&& not64 b.combined
  if color = WHITE ∧ sq_rank square = 1 then
    if b.combined &&& bit_pos (sqOf (sq_file square) (sq_rank square + 1)) ≠ 0 then
      progress_bb &&& not64 (bit_pos (sqOf (sq_file square) (sq_rank square + 2)))
    else progress_bb
  else if color = BLACK ∧ sq_rank square = 6 then
    if b.combined &&& bit_pos (sqOf (sq_file square) (sq_rank square - 1)) ≠ 0 then
      progress_bb &&& not64 (bit_pos (sqOf (sq_file square) (sq_rank square - 2)))
    else progress_bb
  else progress_bb

/-- board.rs `Board::get_pawn_captures`: diagonal attacks restricted to enemy
pieces. -/
def Board.get_pawn_captures (b : Board) (square : Square) (color : Color) : Bitboard :=
  PAWN_CAPTURES color square.toNat &&& b.by_color (opposite color)

/-- board.rs `Board::get_pawn_protections`: both diagonals, regardless of
occupancy. -/
def Board.get_pawn_protections (_b : Board) (square : Square) (color : Color) : Bitboard :=
  PAWN_CAPTURES color square.toNat

/-- board.rs `BISHOP_DIRS`. -/
def BISHOP_DIRS : List (Int × Int) := [(1, 1), (1, -1), (-1, -1), (-1, 1)]

/-- board.rs `ROOK_DIRS`. -/
def ROOK_DIRS : List (Int × Int) := [(1, 0), (0, 1), (-1, 0), (0, -1)]

/-- board.rs `QUEEN_DIRS`. -/
def QUEEN_DIRS : List (Int × Int) :=
  [(1, 0), (1, 1), (0, 1), (-1, 1), (-1, 0), (-1, -1), (0, -1), (1, -1)]

/-- One direction of the blockable-ray loop of board.rs
`Board::get_blockable_rays`: step, stop when leaving the board, stop before a
friendly square unless protections are included, stop after any occupied
square.  The fuel starts at 8 and cannot run out before leaving the board. -/
def blockable_dir_go (color_bb combined_bb : Bitboard) (include_protections : Bool)
    (dir : Int × Int) : Int → Int → Nat → Bitboard
  | _, _, 0 => 0
  | ray_f, ray_r, fuel + 1 =>
    let ray_f := ray_f + dir.1
    let ray_r := ray_r + dir.2
    if ray_f < 0 ∨ ray_f > 7 ∨ ray_r < 0 ∨ ray_r > 7 then 0
    else
      let bp := bit_pos (sqOf ray_f ray_r)
      if ¬ include_protections ∧ color_bb &&& bp ≠ 0 then 0
      else if combined_bb &&& bp ≠ 0 then bp
      else bp ||| blockable_dir_go color_bb combined_bb include_protections dir ray_f ray_r fuel

/-- board.rs `Board::get_blockable_rays`. -/
def Board.get_blockable_rays (b : Board) (square : Square) (color : Color)
    (directions : List (Int × Int)) (include_protections : Bool) : Bitboard :=
  directions.foldl (fun rays_bb dir =>
    rays_bb |||
      blockable_dir_go (b.by_color color) b.combined include_protections dir
        (sq_file square) (sq_rank square) 8) 0

/-- board.rs `Board::get_bishop_rays`. -/
def Board.get_bishop_rays (b : Board) (square : Square) (color : Color) : Bitboard :=
  b.get_blockable_rays square color BISHOP_DIRS false

/-- board.rs `Board::get_bishop_full_rays`. -/
def Board.get_bishop_full_rays (b : Board) (square : Square) (color : Color) : Bitboard :=
  b.get_blockable_rays square color BISHOP_DIRS true

/-- board.rs `Board::get_rook_rays`. -/
def Board.get_rook_rays (b : Board) (square : Square) (color : Color) : Bitboard :=
  b.get_blockable_rays square color ROOK_DIRS false

/-- board.rs `Board::get_rook_full_rays`. -/
def Board.get_rook_full_rays (b : Board) (square : Square) (color : Color) : Bitboard :=
  b.get_blockable_rays square color ROOK_DIRS true

/-- board.rs `Board::get_queen_rays`. -/
def Board.get_queen_rays (b : Board) (square : Square) (color : Color) : Bitboard :=
  b.get_blockable_rays square color QUEEN_DIRS false

/-- board.rs `Board::get_queen_full_rays`. -/
def Board.get_queen_full_rays (b : Board) (square : Square) (color : Color) : Bitboard :=
  b.get_blockable_rays square color QUEEN_DIRS true

/-- board.rs `Board::get_knight_rays`. -/
def Board.get_knight_rays (b : Board) (square : Square) (color : Color) : Bitboard :=
  KNIGHT_RAYS square.toNat &&& not64 (b.by_color color)

/-- board.rs `Board::get_knight_full_rays`. -/
def Board.get_knight_full_rays (_b : Board) (square : Square) : Bitboard :=
  KNIGHT_RAYS square.toNat

/-- board.rs `Board::get_king_rays`. -/
def Board.get_king_rays (b : Board) (square : Square) (color : Color) : Bitboard :=
  KING_RAYS square.toNat &&& not64 (b.by_color color)

/-- board.rs `Board::get_king_full_rays`. -/
def Board.get_king_full_rays (_b : Board) (square : Square) : Bitboard :=
  KING_RAYS square.toNat

/-- board.rs `Board::get_full_rays`: the union of the full rays of every piece
of a color; a color bit with no piece bit underneath panics (`none`). -/
def Board.get_full_rays (b : Board) (color : Color) : Option Bitboard :=
  (List.range 64).foldlM (fun ray_bb s =>
    let square : Square := Int.ofNat s
    if b.by_color color &&& bit_pos square == 0 then some ray_bb
    else do
      let piece ← b.get_piece_on square
      let rays ←
        if piece = PAWN then some (b.get_pawn_protections square color)
        else if piece = BISHOP then some (b.get_bishop_full_rays square color)
        else if piece = KNIGHT then some (b.get_knight_full_rays square)
        else if piece = ROOK then some (b.get_rook_full_rays square color)
        else if piece = QUEEN then some (b.get_queen_full_rays square color)
        else if piece = KING then some (b.get_king_full_rays square)
        else none
      some (ray_bb ||| rays)) 0

-- Legal move generation of the bitboard generation.  The rules module of this
-- generation is not in the snapshot (the rules.rs present is the mailbox one),
-- so it is modelled from spec section 4.4.

/-- castling.rs `CASTLE_SIDES` (king side first). -/
def CASTLE_SIDES : List Nat := [CASTLE_K_MASK, CASTLE_Q_MASK]

/-- Modelled from the spec: the pseudo-legal ray bitboard of one piece (spec
4.4 step 1-2; pawn rays are progresses plus captures restricted to enemy
squares). -/
def pieceRay (b : Board) (square : Square) (color : Color) (piece : Piece) : Bitboard :=
  if piece = PAWN then b.get_pawn_progresses square color ||| b.get_pawn_captures square color
  else if piece = BISHOP then b.get_bishop_rays square color
  else if piece = KNIGHT then b.get_knight_rays square color
  else if piece = ROOK then b.get_rook_rays square color
  else if piece = QUEEN then b.get_queen_rays square color
  else b.get_king_rays square color

/-- Modelled from the spec: enumerate the set bits of a ray bitboard into
candidate moves, promoting a pawn reaching the far rank to a queen (spec 4.4
step 3). -/
def movesFromRay (square : Square) (piece : Piece) (color : Color) (ray : Bitboard) :
    List Move :=
  (List.range 64).filterMap (fun d =>
    if ray &&& bit_pos (Int.ofNat d) ≠ 0 then
      if piece = PAWN ∧ sq_rank (Int.ofNat d) = (if color = WHITE then 7 else 0) then
        some (Move.new_promotion square (Int.ofNat d) QUEEN)
      else
        some (Move.new square (Int.ofNat d))
    else none)

/-- Modelled from the spec: all pseudo-legal candidate moves of the side to
move (spec 4.4 steps 1-3). -/
def pseudoMoves (b : Board) (gs : GameState) : Option (List Move) :=
  (List.range 64).foldlM (fun acc s =>
    let square : Square := Int.ofNat s
    if b.by_color gs.color &&& bit_pos square == 0 then some acc
    else do
      let piece ← b.get_piece_on square
      some (acc ++ movesFromRay square piece gs.color (pieceRay b square gs.color piece))) []

/-- Modelled from the spec: the king-in-check filter (spec 4.4 step 4) —
apply the move to a clone and test whether the mover's king bitboard
intersects the opponent's full-ray attack bitboard. -/
def leavesKingSafe (b : Board) (gs : GameState) (m : Move) : Option Bool := do
  let (_, b2, _) ← m.apply_to b gs
  let full ← b2.get_full_rays (opposite gs.color)
  some (b2.by_color gs.color &&& b2.by_piece KING &&& full == 0)

/-- Modelled from the spec: castle generation (spec 4.4 step 5) — when the
king sits on its back rank, a castle is generated iff the corresponding right
is set, the move-path squares are empty, and the legality-path squares are
unattacked by the opponent's full rays. -/
def castleMoves (b : Board) (gs : GameState) : Option (List Move) :=
  match b.find_king gs.color with
  | none => some []
  | some king =>
    if sq_rank king ≠ (if gs.color = WHITE then 0 else 7) then some []
    else do
      let full ← b.get_full_rays (opposite gs.color)
      (CASTLE_SIDES.enum.foldlM (fun acc sideIdx =>
        let idx := sideIdx.1
        let side := sideIdx.2
        let right := side &&& (CASTLE_MASK_BY_COLOR.getD gs.color 0)
        let movePath := (CASTLE_MOVE_PATHS.getD gs.color []).getD idx 0
        let legalityPath := (CASTLE_LEGALITY_PATHS.getD gs.color []).getD idx 0
        if gs.castling &&& right ≠ 0 ∧ b.combined &&& movePath = 0 ∧
            full &&& legalityPath = 0 then
          some (acc ++ (Move.get_castle_move right).toList)
        else some acc) [])

/-- Modelled from the spec: the legal move generator of the bitboard
generation (rules module missing from the snapshot), per spec section 4.4:
pseudo-legal candidates, filtered by the king-in-check rule, plus castles. -/
def get_player_moves_bb (b : Board) (gs : GameState) : Option (List Move) := do
  let pseudo ← pseudoMoves b gs
  let filtered ← pseudo.foldlM (fun acc m => do
    let ok ← leavesKingSafe b gs m
    some (if ok then acc ++ [m] else acc)) []
  let castles ← castleMoves b gs
  some (filtered ++ castles)

-- stats.rs.

/-- stats.rs `BoardStats` (the counters are `i8`/`i32` in the source, modelled
as `Int`). -/
structure BoardStats where
  num_pawns : Int
  num_bishops : Int
  num_knights : Int
  num_rooks : Int
  num_queens : Int
  num_kings : Int
  num_doubled_pawns : Int
  num_backward_pawns : Int
  num_isolated_pawns : Int
  mobility : Int
deriving DecidableEq, Repr

/-- stats.rs `BoardStats::new`. -/
def BoardStats.new : BoardStats :=
  { num_pawns := 0, num_bishops := 0, num_knights := 0, num_rooks := 0, num_queens := 0,
    num_kings := 0, num_doubled_pawns := 0, num_backward_pawns := 0,
    num_isolated_pawns := 0, mobility := 0 }

/-- The per-square body of the counting loop of stats.rs
`BoardStats::compute`: skip empty and enemy squares, then increment the
matching piece counter.  The entire pawn-structure block (doubled, isolated,
backward) is commented out in the source — a pawn only increments
`num_pawns`. -/
def BoardStats.countSquare (b : Board) (color : Color) (stats : BoardStats) (square : Square) :
    Option BoardStats :=
  if b.is_empty square then some stats
  else do
    let c ← b.get_color_on square
    if c ≠ color then some stats
    else do
      let piece ← b.get_piece_on square
      some (if piece = ROOK then { stats with num_rooks := stats.num_rooks + 1 }
        else if piece = KNIGHT then { stats with num_knights := stats.num_knights + 1 }
        else if piece = BISHOP then { stats with num_bishops := stats.num_bishops + 1 }
        else if piece = QUEEN then { stats with num_queens := stats.num_queens + 1 }
        else if piece = KING then { stats with num_kings := stats.num_kings + 1 }
        else if piece = PAWN then { stats with num_pawns := stats.num_pawns + 1 }
        else stats)

/-- stats.rs `BoardStats::compute`: reset, mobility from the legal move count,
then the per-square counting loop in file-major order. -/
def BoardStats.compute (b : Board) (gs : GameState) : Option BoardStats := do
  let moves ← get_player_moves_bb b gs
  let stats := { BoardStats.new with mobility := (moves.length : Int) }
  ((List.range 8).flatMap (fun file => (List.range 8).map (fun rank =>
      sqOf (Int.ofNat file) (Int.ofNat rank)))).foldlM
    (BoardStats.countSquare b gs.color) stats

/-- stats.rs `BoardStats::new_from`: stats of the playing color first, then of
its opponent. -/
def BoardStats.new_from (b : Board) (gs : GameState) : Option (BoardStats × BoardStats) := do
  let s0 ← BoardStats.compute b gs
  let s1 ← BoardStats.compute b { gs with color := opposite gs.color }
  some (s0, s1)

/-- The spec's definition of the doubled-pawn count (claim C6): pawns of the
color that share their file with at least one other friendly pawn. -/
def specNumDoubledPawns (b : Board) (color : Color) : Nat :=
  ((List.range 64).filter (fun s =>
    b.by_color color &&& b.by_piece PAWN &&& bit_pos (Int.ofNat s) ≠ 0 ∧
    (List.range 64).any (fun t =>
      t ≠ s ∧ t / 8 = s / 8 ∧
      b.by_color color &&& b.by_piece PAWN &&& bit_pos (Int.ofNat t) ≠ 0))).length

/-- The spec's definition of the isolated-pawn count (claim C6): pawns of the
color with no friendly pawn on either adjacent file. -/
def specNumIsolatedPawns (b : Board) (color : Color) : Nat :=
  ((List.range 64).filter (fun s =>
    b.by_color color &&& b.by_piece PAWN &&& bit_pos (Int.ofNat s) ≠ 0 ∧
    ¬ (List.range 64).any (fun t =>
      (t / 8 + 1 = s / 8 ∨ s / 8 + 1 = t / 8) ∧
      b.by_color color &&& b.by_piece PAWN &&& bit_pos (Int.ofNat t) ≠ 0))).length

/-- Board used for claim C6: two white pawns doubled on the d-file. -/
def doubledPawnsBoard : Board :=
  (Board.new_empty.set_square D4 WHITE PAWN).set_square D6 WHITE PAWN

-- node.rs, as used by analysis.rs.

/-- node.rs `Node`: a board along with the game state. -/
structure Node where
  board : Board
  game_state : GameState
deriving DecidableEq, Repr

/-- node.rs `Node::get_player_moves` (committing), via the bitboard rules
module modelled above. -/
def Node.get_player_moves (n : Node) : Option (List Move) :=
  get_player_moves_bb n.board n.game_state

/-- node.rs `Node::compute_stats`. -/
def Node.compute_stats (n : Node) : Option (BoardStats × BoardStats) :=
  BoardStats.new_from n.board n.game_state

-- analysis.rs.

/-- The `f32` scores of analysis.rs, modelled exactly: negative infinity,
positive infinity, or a rational number.  The claims proved about the search
do not depend on floating-point rounding. -/
inductive F32 where
  | negInf : F32
  | posInf : F32
  | num : Rat → F32
deriving DecidableEq, Repr

/-- IEEE negation on the modelled scores. -/
def F32.neg : F32 → F32
  | .negInf => .posInf
  | .posInf => .negInf
  | .num q => .num (-q)

/-- IEEE strict order on the modelled scores (an infinity never compares
strictly below itself). -/
def F32.lt : F32 → F32 → Bool
  | .negInf, .negInf => false
  | .negInf, _ => true
  | .posInf, _ => false
  | .num _, .negInf => false
  | .num a, .num b => a < b
  | .num _, .posInf => true

/-- analysis.rs `AnalysisParams` (all the fields are `i32`). -/
structure AnalysisParams where
  move_time : Int
  white_time : Int
  black_time : Int
  white_inc : Int
  black_inc : Int
deriving DecidableEq, Repr

/-- Modelled from the spec: `board::is_white` as used by analysis.rs on the
game state's color (the spec's Color encoding, `WHITE = 0`). -/
def is_white (color : Color) : Bool := color == WHITE

/-- Two's-complement wrap-around of a 32-bit signed addition, as Rust release
builds perform. -/
def wrap32 (x : Int) : Int := (x + 2147483648) % 4294967296 - 2147483648

/-- analysis.rs `Analyzer::set_limits`: the maximum depth is fixed at 4; the
time limit is `move_time` whenever that field differs from the `-1` sentinel,
and otherwise is derived from the side-to-move's clock: above two minutes one
minute is allotted, above zero a quarter of the remaining time plus the
increment, and otherwise the `i32::MAX` sentinel (no limit). -/
def set_limits (args : AnalysisParams) (color : Color) : Nat × Int :=
  (4,
    if args.move_time ≠ -1 then args.move_time
    else
      let ti :=
        if is_white color then (args.white_time, args.white_inc)
        else (args.black_time, args.black_inc)
      if ti.1 > 2 * 60 * 1000 then 60 * 1000
      else if ti.1 > 0 then wrap32 (ti.1.tdiv 4 + ti.2)
      else 2147483647)

/-- analysis.rs `Analyzer`, restricted to the fields the search reads and
writes (the channel, the clock instants and the cancel flag live outside the
pure model; the clock and flag reads are abstracted by the oracles passed to
`negamax`). -/
structure Analyzer where
  debug : Bool
  node : Node
  max_depth : Nat
  time_limit : Int
  num_nodes : Nat
  num_nodes_in_second : Nat
deriving DecidableEq, Repr

/-- analysis.rs `Analyzer::should_stop_search`: the cancel flag and the
elapsed-time comparison are abstracted by the `stop` oracle (a function of the
visit count); the depth bound is the analyzer's own. -/
def should_stop_search (stop : Nat → Bool) (a : Analyzer) (depth : Nat) : Bool :=
  stop a.num_nodes || depth == a.max_depth

/-- analysis.rs `evaluate`: Shannon's linear combination of the two sides'
stats, player minus opponent. -/
def evaluate (stats : BoardStats × BoardStats) : F32 :=
  let p := stats.1
  let o := stats.2
  F32.num
    (200 * ((p.num_kings : Rat) - (o.num_kings : Rat))
     + 9 * ((p.num_queens : Rat) - (o.num_queens : Rat))
     + 5 * ((p.num_rooks : Rat) - (o.num_rooks : Rat))
     + 3 * ((p.num_bishops : Rat) - (o.num_bishops : Rat))
     + 3 * ((p.num_knights : Rat) - (o.num_knights : Rat))
     + ((p.num_pawns : Rat) - (o.num_pawns : Rat))
     - (1 / 2) * (((p.num_doubled_pawns - o.num_doubled_pawns
         + p.num_isolated_pawns - o.num_isolated_pawns
         + p.num_backward_pawns - o.num_backward_pawns) : Int) : Rat)
     + (1 / 10) * (((p.mobility - o.mobility) : Int) : Rat))

mutual

/-- analysis.rs `Analyzer::negamax`, totalized with a fuel argument (the Rust
recursion is bounded by the depth check inside `should_stop_search`; with
enough fuel the two agree, and every theorem below holds for all fuel).
`stop` abstracts the cancel-flag and time checks and `tick` the
once-per-second stats timer, both read as functions of the visit counter.
Every candidate move is applied to a fresh clone of the node; the analyzer's
counters thread through the recursion. -/
def negamax (stop tick : Nat → Bool) (fuel : Nat) (a : Analyzer) (node : Node)
    (alpha beta : F32) (depth : Nat) : Option (Analyzer × F32 × Option Move) :=
  match fuel with
  | 0 =>
    let a := { a with num_nodes := a.num_nodes + 1,
                      num_nodes_in_second := a.num_nodes_in_second + 1 }
    (node.compute_stats).map (fun stats => (a, evaluate stats, none))
  | f + 1 =>
    let a := { a with num_nodes := a.num_nodes + 1,
                      num_nodes_in_second := a.num_nodes_in_second + 1 }
    if should_stop_search stop a depth then
      (node.compute_stats).map (fun stats => (a, evaluate stats, none))
    else
      let a := if tick a.num_nodes then { a with num_nodes_in_second := 0 } else a
      match node.get_player_moves with
      | none => none
      | some moves =>
        negamax_loop stop tick f a node alpha beta depth moves F32.negInf none
termination_by (fuel, 0)

/-- The `for m in moves` loop of analysis.rs `Analyzer::negamax`: clone the
node, apply the move, recurse with the negated window, negate the returned
score, track the best score and move, raise alpha, and cut off when alpha
reaches beta. -/
def negamax_loop (stop tick : Nat → Bool) (fuel : Nat) (a : Analyzer) (node : Node)
    (alpha beta : F32) (depth : Nat) (moves : List Move) (best_score : F32)
    (best_move : Option Move) : Option (Analyzer × F32 × Option Move) :=
  match moves with
  | [] => some (a, best_score, best_move)
  | m :: rest => do
    let (_, b2, gs2) ← m.apply_to node.board node.game_state
    let (a2, s, _) ←
      negamax stop tick fuel a { board := b2, game_state := gs2 } beta.neg alpha.neg (depth + 1)
    let score := s.neg
    let best_score2 := if F32.lt best_score score then score else best_score
    let best_move2 := if F32.lt best_score score then some m else best_move
    let alpha2 := if F32.lt alpha best_score2 then best_score2 else alpha
    if ¬ F32.lt alpha2 beta then some (a2, best_score2, best_move2)
    else negamax_loop stop tick fuel a2 node alpha2 beta depth rest best_score2 best_move2
termination_by (fuel, 1 + moves.length)

end

/-- Analysis parameters used by claim C7's counterexample: a negative
`move_time` that is not the `-1` sentinel, with plenty of time on the white
clock. -/
def negMoveTimeParams : AnalysisParams :=
  { move_time := -2, white_time := 300000, black_time := 0, white_inc := 0, black_inc := 0 }

/-- Node used by claim C10's witness: the starting position. -/
def startNode : Node := { board := Board.new, game_state := GameState.new }

/-- Per-side stats of the starting position (used by claim C10's witness). -/
def startStats : BoardStats :=
  { num_pawns := 8, num_bishops := 2, num_knights := 2, num_rooks := 2, num_queens := 1,
    num_kings := 1, num_doubled_pawns := 0, num_backward_pawns := 0,
    num_isolated_pawns := 0, mobility := 20 }

/-- Analyzer used by claim C10's witness. -/
def idleAnalyzer : Analyzer :=
  { debug := false, node := startNode, max_depth := 4, time_limit := 0,
    num_nodes := 0, num_nodes_in_second := 0 }

/-- The fields of the analyzer that `negamax` must not change: the stored
node (board and game state), the debug flag and the search limits.  Only the
two visit counters are excluded. -/
def preserves_frame (a a2 : Analyzer) : Prop :=
  a2.node = a.node ∧ a2.debug = a.debug ∧ a2.max_depth = a.max_depth ∧
    a2.time_limit = a.time_limit

end BB

namespace MB

/-!
The mailbox generation: rules.rs and engine.rs from the snapshot.  Their board
module (an early board.rs) is not in the sources; following the spec's data
model (squares hold a color and a piece kind) and the call sites in rules.rs,
it is modelled as 64 square codes, each a byte carrying one color flag and one
piece flag.
-/

/-- Modelled from the spec: the empty-square code of the missing mailbox
board module. -/
def SQ_E : Nat := 0

/-- Modelled from the spec: piece flag bits of the missing mailbox board
module (one bit per piece kind). -/
def SQ_P : Nat := 0b00000001
def SQ_B : Nat := 0b00000010
def SQ_N : Nat := 0b00000100
def SQ_R : Nat := 0b00001000
def SQ_Q : Nat := 0b00010000
def SQ_K : Nat := 0b00100000

/-- Modelled from the spec: color flag bits of the missing mailbox board
module. -/
def SQ_WH : Nat := 0b01000000
def SQ_BL : Nat := 0b10000000

def SQ_WH_P : Nat := SQ_WH ||| SQ_P
def SQ_WH_B : Nat := SQ_WH ||| SQ_B
def SQ_WH_N : Nat := SQ_WH ||| SQ_N
def SQ_WH_R : Nat := SQ_WH ||| SQ_R
def SQ_WH_Q : Nat := SQ_WH ||| SQ_Q
def SQ_WH_K : Nat := SQ_WH ||| SQ_K
def SQ_BL_P : Nat := SQ_BL ||| SQ_P
def SQ_BL_B : Nat := SQ_BL ||| SQ_B
def SQ_BL_N : Nat := SQ_BL ||| SQ_N
def SQ_BL_R : Nat := SQ_BL ||| SQ_R
def SQ_BL_Q : Nat := SQ_BL ||| SQ_Q
def SQ_BL_K : Nat := SQ_BL ||| SQ_K

/-- Modelled from the spec: test whether a square code carries a color flag
(also used on pure color values, as rules.rs does with the game state's
color field). -/
def is_color (square color : Nat) : Bool := square &&& color != 0

/-- Modelled from the spec: whiteness test on a square code or color value. -/
def is_white (square : Nat) : Bool := square &&& SQ_WH != 0

/-- Modelled from the spec: blackness test on a square code or color value. -/
def is_black (square : Nat) : Bool := square &&& SQ_BL != 0

/-- Modelled from the spec: test whether a square code carries a piece flag. -/
def is_piece (square piece : Nat) : Bool := square &&& piece != 0

/-- Modelled from the spec: the color component of a square code. -/
def get_color (square : Nat) : Nat := square &&& (SQ_WH ||| SQ_BL)

/-- Modelled from the spec: the opposite of a pure color value (the spec's
`opposite(c) = c XOR 1` transported to the flag encoding: both color bits are
toggled). -/
def opposite (color : Nat) : Nat := color ^^^ (SQ_WH ||| SQ_BL)

/-- Position on the mailbox board: a (file, rank) pair of `i8`, as in
rules.rs (`Pos`), modelled over `Int`. -/
abbrev Pos := Int × Int

def POS_MIN : Int := 0
def POS_MAX : Int := 7

/-- Modelled from the spec: string coordinates to position (file letter minus
0x61, rank digit minus 0x31); shorter strings would panic in Rust and give the
junk value (0, 0) here (never exercised). -/
def pos (s : String) : Pos :=
  match s.toList with
  | c0 :: c1 :: _ => ((c0.toNat : Int) - 0x61, (c1.toNat : Int) - 0x31)
  | _ => (0, 0)

/-- Modelled from the spec: bounds check for a position. -/
def is_valid_pos (p : Pos) : Bool :=
  POS_MIN ≤ p.1 ∧ p.1 ≤ POS_MAX ∧ POS_MIN ≤ p.2 ∧ p.2 ≤ POS_MAX

/-- Modelled from the spec: the mailbox board — 64 square codes.  Represented
as one natural number holding 64 bytes, the byte for position (f, r) at offset
`8 * (f*8 + r)` (the spec's square numbering). -/
abbrev Board := Nat

/-- Byte index of a position inside the packed board. -/
def sqIdx (p : Pos) : Nat := (p.1 * 8 + p.2).toNat

/-- All 512 board bits set; used to clear one byte. -/
def BOARD_MASK : Nat := 2 ^ 512 - 1

/-- Modelled from the spec: read the square code at a position. -/
def get_square (b : Board) (p : Pos) : Nat := (b >>> (8 * sqIdx p)) &&& 255

/-- Modelled from the spec: overwrite the square code at a position. -/
def set_square (b : Board) (p : Pos) (square : Nat) : Board :=
  (b &&& (BOARD_MASK ^^^ (255 <<< (8 * sqIdx p)))) ||| (square <<< (8 * sqIdx p))

/-- Modelled from the spec: empty the square at a position. -/
def clear_square (b : Board) (p : Pos) : Board := set_square b p SQ_E

/-- Modelled from the spec: emptiness test. -/
def is_empty (b : Board) (p : Pos) : Bool := get_square b p == SQ_E

/-- Modelled from the spec: move the code at `p1` to `p2`, emptying `p1` (and
overwriting whatever was on `p2`). -/
def move_piece (b : Board) (p1 p2 : Pos) : Board :=
  let square := get_square b p1
  let b := clear_square b p1
  set_square b p2 square

/-- Modelled from the spec: position of the first king of this color, in
square order. -/
def find_king (b : Board) (color : Nat) : Option Pos :=
  (((List.range 8).flatMap (fun f => (List.range 8).map (fun r => ((f : Int), (r : Int))))).find?
    (fun p => is_color (get_square b p) color && is_piece (get_square b p) SQ_K))

/-- Modelled from the spec: the empty mailbox board. -/
def new_empty : Board := 0

/-- Modelled from the spec: mailbox board from a FEN placement field, ranks 8
to 1, files a to h, digits skipping empty squares. -/
def mb_from_fen_go : Board → Int → Int → List Char → Board
  | b, _, _, [] => b
  | b, f, r, c :: rest =>
    if c = 'r' then mb_from_fen_go (set_square b (f, r) SQ_BL_R) (f + 1) r rest
    else if c = 'n' then mb_from_fen_go (set_square b (f, r) SQ_BL_N) (f + 1) r rest
    else if c = 'b' then mb_from_fen_go (set_square b (f, r) SQ_BL_B) (f + 1) r rest
    else if c = 'q' then mb_from_fen_go (set_square b (f, r) SQ_BL_Q) (f + 1) r rest
    else if c = 'k' then mb_from_fen_go (set_square b (f, r) SQ_BL_K) (f + 1) r rest
    else if c = 'p' then mb_from_fen_go (set_square b (f, r) SQ_BL_P) (f + 1) r rest
    else if c = 'R' then mb_from_fen_go (set_square b (f, r) SQ_WH_R) (f + 1) r rest
    else if c = 'N' then mb_from_fen_go (set_square b (f, r) SQ_WH_N) (f + 1) r rest
    else if c = 'B' then mb_from_fen_go (set_square b (f, r) SQ_WH_B) (f + 1) r rest
    else if c = 'Q' then mb_from_fen_go (set_square b (f, r) SQ_WH_Q) (f + 1) r rest
    else if c = 'K' then mb_from_fen_go (set_square b (f, r) SQ_WH_K) (f + 1) r rest
    else if c = 'P' then mb_from_fen_go (set_square b (f, r) SQ_WH_P) (f + 1) r rest
    else if c = '/' then mb_from_fen_go b 0 (r - 1) rest
    else if c.isDigit then mb_from_fen_go b (f + Int.ofNat (c.toNat - 48)) r rest
    else b

/-- Modelled from the spec: mailbox board from a FEN placement field. -/
def new_from_fen (placement : String) : Board :=
  mb_from_fen_go new_empty 0 7 placement.toList

/-- Modelled from the spec: the mailbox starting board. -/
def new : Board := new_from_fen ("rnbqkbnr/pppppppp/8/8/8/8/PPPPPPPP/RNBQKBNR")

-- rules.rs proper starts here.

/-- rules.rs `GameState`: the color field holds a color flag value (`SQ_WH` or
`SQ_BL`). -/
structure GameState where
  color : Nat
  castling : Nat
  en_passant : Option Pos
  halfmove : Int
  fullmove : Int
deriving DecidableEq, Repr

/-- rules.rs castling flags. -/
def CASTLING_WH_K : Nat := 0b00000001
def CASTLING_WH_Q : Nat := 0b00000010
def CASTLING_WH_MASK : Nat := 0b00000011
def CASTLING_BL_K : Nat := 0b00000100
def CASTLING_BL_Q : Nat := 0b00001000
def CASTLING_BL_MASK : Nat := 0b00001100
def CASTLING_K_MASK : Nat := 0b00000101
def CASTLING_Q_MASK : Nat := 0b00001010
def CASTLING_MASK : Nat := 0b00001111

/-- rules.rs `GameState::new`. -/
def GameState.new : GameState :=
  { color := SQ_WH, castling := CASTLING_MASK, en_passant := none,
    halfmove := 0, fullmove := 1 }

/-- rules.rs `CASTLING_SIDES`: the files the king crosses (the `5..=6` and
`2..=3` ranges written out) paired with the side masks. -/
def CASTLING_SIDES : List (List Int × Nat) :=
  [([5, 6], CASTLING_K_MASK), ([2, 3], CASTLING_Q_MASK)]

/-- rules.rs `Move`: source position, destination position, optional
promotion. -/
abbrev Move := Pos × Pos × Option Nat

/-- rules.rs `get_castle`: the castling flag a move matches, from its
source/destination pair. -/
def get_castle (m : Move) : Option Nat :=
  if m.1 = pos ("e1") then
    if m.2.1 = pos ("c1") then some CASTLING_WH_Q
    else if m.2.1 = pos ("g1") then some CASTLING_WH_K
    else none
  else if m.1 = pos ("e8") then
    if m.2.1 = pos ("c8") then some CASTLING_BL_Q
    else if m.2.1 = pos ("g8") then some CASTLING_BL_K
    else none
  else none

/-- rules.rs `get_castle_move`; panics (`none`) on an unknown flag. -/
def get_castle_move (castle : Nat) : Option Move :=
  if castle = CASTLING_WH_Q then some (pos ("e1"), pos ("c1"), none)
  else if castle = CASTLING_WH_K then some (pos ("e1"), pos ("g1"), none)
  else if castle = CASTLING_BL_Q then some (pos ("e8"), pos ("c8"), none)
  else if castle = CASTLING_BL_K then some (pos ("e8"), pos ("g8"), none)
  else none

/-- rules.rs `apply_move_to_board`. -/
def apply_move_to_board (b : Board) (m : Move) : Board :=
  match get_castle m with
  | some castle =>
    if castle = CASTLING_WH_K then
      move_piece (move_piece b (pos ("e1")) (pos ("g1"))) (pos ("h1")) (pos ("f1"))
    else if castle = CASTLING_WH_Q then
      move_piece (move_piece b (pos ("e1")) (pos ("c1"))) (pos ("a1")) (pos ("d1"))
    else if castle = CASTLING_BL_K then
      move_piece (move_piece b (pos ("e8")) (pos ("g8"))) (pos ("h8")) (pos ("f8"))
    else if castle = CASTLING_BL_Q then
      move_piece (move_piece b (pos ("e8")) (pos ("c8"))) (pos ("a8")) (pos ("d8"))
    else b
  | none => move_piece b m.1 m.2.1

/-- rules.rs `apply_move_to_state`: flip the side to move. -/
def apply_move_to_state (gs : GameState) (_m : Move) : GameState :=
  { gs with color := opposite gs.color }

/-- rules.rs `apply_move_to`: board placement, then player turn, then drop the
moving color's castling options when the move is a castle. -/
def apply_move_to (b : Board) (gs : GameState) (m : Move) : Board × GameState :=
  let b := apply_move_to_board b m
  let gs := apply_move_to_state gs m
  let gs :=
    match get_castle m with
    | some castle =>
      if castle = CASTLING_WH_K ∨ castle = CASTLING_WH_Q then
        { gs with castling := gs.castling &&& not8 CASTLING_WH_MASK }
      else if castle = CASTLING_BL_K ∨ castle = CASTLING_BL_Q then
        { gs with castling := gs.castling &&& not8 CASTLING_BL_MASK }
      else gs
    | none => gs
  (b, gs)

/-- rules.rs `apply_move`: same as `apply_move_to` on copies. -/
def apply_move (b : Board) (gs : GameState) (m : Move) : Board × GameState :=
  apply_move_to b gs m

/-- rules.rs `move_on_enemy`: a move from `pos1` to `pos2` when the two piece
codes are enemies, with automatic queen promotion for a pawn reaching the
opposite rank. -/
def move_on_enemy (piece1 : Nat) (pos1 : Pos) (piece2 : Nat) (pos2 : Pos) : Option Move :=
  let color1 := get_color piece1
  if is_color piece2 (opposite color1) then
    let prom :=
      if is_piece piece1 SQ_P ∧
          ((is_white piece1 ∧ pos2.2 = POS_MAX) ∨ (is_black piece1 ∧ pos2.2 = POS_MIN)) then
        some SQ_Q
      else
        none
    some (pos1, pos2, prom)
  else
    none

/-!
Each generator in rules.rs pushes a candidate move only through the guard
`if can_register(commit, …) { moves.push(m) }`, where `can_register` does not
depend on the generator's loop state.  The candidate sequences are therefore
defined first (the loops verbatim, minus the guard), and each `get_*_moves`
function is the corresponding candidate sequence filtered by `can_register`.
-/

/-- The `for i in 1..=move_len` loop body of rules.rs `get_pawn_moves`, over
the remaining loop indices; an out-of-board forward rank is the early
`return`. -/
def pawn_cand_go (b : Board) (atP : Pos) (piece : Nat) (dir : Int) : List Int → List Move
  | [] => []
  | i :: rest =>
    let forward_r := atP.2 + dir * i
    if dir > 0 ∧ forward_r > POS_MAX then []
    else if dir < 0 ∧ forward_r < POS_MIN then []
    else
      let forward : Pos := (atP.1, forward_r)
      let fwd :=
        if is_empty b forward ∧ (i = 1 ∨ is_empty b (atP.1, forward_r - dir)) then
          let prom :=
            if (dir > 0 ∧ forward_r = POS_MAX) ∨ (dir < 0 ∧ forward_r = POS_MIN) then
              some SQ_Q
            else none
          [(atP, forward, prom)]
        else []
      let diag1 :=
        if i = 1 ∧ atP.1 - 1 ≥ POS_MIN then
          (move_on_enemy piece atP (get_square b (atP.1 - 1, forward_r)) (atP.1 - 1, forward_r)).toList
        else []
      let diag2 :=
        if i = 1 ∧ atP.1 + 1 ≤ POS_MAX then
          (move_on_enemy piece atP (get_square b (atP.1 + 1, forward_r)) (atP.1 + 1, forward_r)).toList
        else []
      fwd ++ diag1 ++ diag2 ++ pawn_cand_go b atP piece dir rest

/-- Candidate moves of rules.rs `get_pawn_moves` (the pushes, in push order). -/
def get_pawn_candidates (b : Board) (atP : Pos) (piece : Nat) : List Move :=
  let dir : Int := if is_white piece then 1 else -1
  let two := (is_white piece ∧ atP.2 = 1) ∨ (is_black piece ∧ atP.2 = 6)
  pawn_cand_go b atP piece dir (if two then [1, 2] else [1])

/-- rules.rs bishop directions, in loop order. -/
def BISHOP_OFFSETS : List (Int × Int) := [(1, -1), (1, 1), (-1, 1), (-1, -1)]

/-- rules.rs rook directions, in loop order. -/
def ROOK_OFFSETS : List (Int × Int) := [(0, 1), (1, 0), (0, -1), (-1, 0)]

/-- One distance step of the sliding-piece loops of rules.rs: visit every
direction still in view, collecting pushes and blocking directions that hit a
piece. -/
def slide_dirs_go (b : Board) (atP : Pos) (piece : Nat) (dist : Int) :
    List (Nat × (Int × Int)) → List Bool → List Move × List Bool
  | [], views => ([], views)
  | (dir, offset) :: rest, views =>
    if views.getD dir true then
      let p : Pos := (atP.1 + offset.1 * dist, atP.2 + offset.2 * dist)
      if ¬ is_valid_pos p then slide_dirs_go b atP piece dist rest views
      else if is_empty b p then
        let (ms, views) := slide_dirs_go b atP piece dist rest views
        ((atP, p, none) :: ms, views)
      else
        let pushed := (move_on_enemy piece atP (get_square b p) p).toList
        let (ms, views) := slide_dirs_go b atP piece dist rest (views.set dir false)
        (pushed ++ ms, views)
    else
      slide_dirs_go b atP piece dist rest views

/-- The `for dist in 1..=7` loop of rules.rs sliding generators, threading the
per-direction view flags. -/
def slide_cand_go (b : Board) (atP : Pos) (piece : Nat) (offsets : List (Nat × (Int × Int))) :
    List Int → List Bool → List Move
  | [], _ => []
  | dist :: rest, views =>
    let step := slide_dirs_go b atP piece dist offsets views
    step.1 ++ slide_cand_go b atP piece offsets rest step.2

/-- Candidate moves of rules.rs `get_bishop_moves`. -/
def get_bishop_candidates (b : Board) (atP : Pos) (piece : Nat) : List Move :=
  slide_cand_go b atP piece BISHOP_OFFSETS.enum [1, 2, 3, 4, 5, 6, 7]
    [true, true, true, true]

/-- Candidate moves of rules.rs `get_rook_moves`. -/
def get_rook_candidates (b : Board) (atP : Pos) (piece : Nat) : List Move :=
  slide_cand_go b atP piece ROOK_OFFSETS.enum [1, 2, 3, 4, 5, 6, 7]
    [true, true, true, true]

/-- rules.rs knight offsets, in loop order. -/
def KNIGHT_OFFSETS : List (Int × Int) :=
  [(1, 2), (2, 1), (2, -1), (1, -2), (-1, -2), (-2, -1), (-2, 1), (-1, 2)]

/-- rules.rs king offsets, in loop order. -/
def KING_OFFSETS : List (Int × Int) :=
  [(-1, 1), (0, 1), (1, 1), (-1, 0), (1, 0), (-1, -1), (0, -1), (1, -1)]

/-- Candidate moves of the fixed-offset generators (knight, and the king's
non-castling part) of rules.rs. -/
def offset_candidates (b : Board) (atP : Pos) (piece : Nat) (offsets : List (Int × Int)) :
    List Move :=
  offsets.flatMap (fun offset =>
    let p : Pos := (atP.1 + offset.1, atP.2 + offset.2)
    if ¬ is_valid_pos p then []
    else if is_empty b p then [(atP, p, none)]
    else (move_on_enemy piece atP (get_square b p) p).toList)

/-- Candidate moves of rules.rs `get_knight_moves`. -/
def get_knight_candidates (b : Board) (atP : Pos) (piece : Nat) : List Move :=
  offset_candidates b atP piece KNIGHT_OFFSETS

/-- Candidate moves of the non-castling part of rules.rs `get_king_moves`. -/
def get_king_candidates (b : Board) (atP : Pos) (piece : Nat) : List Move :=
  offset_candidates b atP piece KING_OFFSETS

/-- Candidate moves of one piece, dispatched on its square code exactly as
rules.rs `get_piece_moves` does; the king contributes only its non-castling
candidates here (with `commit == false` the castle section is skipped, and
with `commit == true` it is appended separately below). -/
def get_piece_candidates (b : Board) (atP : Pos) : List Move :=
  let p := get_square b atP
  if is_piece p SQ_P then get_pawn_candidates b atP p
  else if is_piece p SQ_B then get_bishop_candidates b atP p
  else if is_piece p SQ_N then get_knight_candidates b atP p
  else if is_piece p SQ_R then get_rook_candidates b atP p
  else if is_piece p SQ_Q then get_bishop_candidates b atP p ++ get_rook_candidates b atP p
  else if is_piece p SQ_K then get_king_candidates b atP p
  else []

/-- Candidate moves of the whole side to move, in the `for r in 0..8, for f in
0..8` order of rules.rs `get_player_moves`.  Equal to
`get_player_moves b gs false` (theorem `MB.get_player_moves_false_eq`). -/
def player_candidates (b : Board) (gs : GameState) : List Move :=
  (List.range 8).flatMap (fun r =>
    (List.range 8).flatMap (fun f =>
      if is_empty b ((f : Int), (r : Int)) then []
      else if is_color (get_square b ((f : Int), (r : Int))) gs.color then
        get_piece_candidates b ((f : Int), (r : Int))
      else []))

/-- rules.rs `is_attacked`: some non-committed move of the opposite color
targets the position. -/
def is_attacked (b : Board) (gs : GameState) (atP : Pos) : Bool :=
  (player_candidates b { gs with color := opposite gs.color }).any
    (fun m => atP == m.2.1)

/-- rules.rs `is_illegal`: the move leaves the player's king (atP its new
position when the king itself moves) attacked on the hypothetic board. -/
def is_illegal (b : Board) (gs : GameState) (m : Move) : Bool :=
  match find_king b gs.color with
  | some king_p =>
    let king_p := if m.1 = king_p then m.2.1 else king_p
    is_attacked (apply_move_to_board b m) gs king_p
  | none => false

/-- rules.rs `can_register`: either the move is not being committed, or it is
not illegal. -/
def can_register (commit : Bool) (b : Board) (gs : GameState) (m : Move) : Bool :=
  !commit || !is_illegal b gs m

/-- rules.rs `get_pawn_moves`. -/
def get_pawn_moves (b : Board) (atP : Pos) (piece : Nat) (gs : GameState) (commit : Bool) :
    List Move :=
  (get_pawn_candidates b atP piece).filter (fun m => can_register commit b gs m)

/-- rules.rs `get_bishop_moves`. -/
def get_bishop_moves (b : Board) (atP : Pos) (piece : Nat) (gs : GameState) (commit : Bool) :
    List Move :=
  (get_bishop_candidates b atP piece).filter (fun m => can_register commit b gs m)

/-- rules.rs `get_knight_moves`. -/
def get_knight_moves (b : Board) (atP : Pos) (piece : Nat) (gs : GameState) (commit : Bool) :
    List Move :=
  (get_knight_candidates b atP piece).filter (fun m => can_register commit b gs m)

/-- rules.rs `get_rook_moves`. -/
def get_rook_moves (b : Board) (atP : Pos) (piece : Nat) (gs : GameState) (commit : Bool) :
    List Move :=
  (get_rook_candidates b atP piece).filter (fun m => can_register commit b gs m)

/-- rules.rs `get_queen_moves`: bishop moves then rook moves. -/
def get_queen_moves (b : Board) (atP : Pos) (piece : Nat) (gs : GameState) (commit : Bool) :
    List Move :=
  get_bishop_moves b atP piece gs commit ++ get_rook_moves b atP piece gs commit

/-- The castle section of rules.rs `get_king_moves` (reached only with
`commit == true`): provided the king is on its castling rank and not attacked,
for each side whose availability test passes (note the `|` in the source: the
test is always true) and whose crossed files are empty and not illegal to step
on, push the move of `CASTLING_K_MASK & castling_color_mask` — the king-side
move for both loop iterations. -/
def king_castle_candidates (b : Board) (atP : Pos) (gs : GameState) : List Move :=
  let castling_rank : Int := if is_white gs.color then 0 else 7
  let castling_color_mask := if is_white gs.color then CASTLING_WH_MASK else CASTLING_BL_MASK
  if atP.2 = castling_rank ∧ ¬ is_attacked b gs atP then
    CASTLING_SIDES.flatMap (fun side =>
      if ((gs.castling &&& castling_color_mask) ||| side.2) ≠ 0 then
        let clear_path := side.1.all (fun through_f =>
          is_empty b (through_f, castling_rank) ∧
            ¬ is_illegal b gs (atP, (through_f, castling_rank), none))
        if clear_path then
          (get_castle_move (CASTLING_K_MASK &&& castling_color_mask)).toList
        else []
      else [])
  else []

/-- rules.rs `get_king_moves`: the offset moves, then (only when committing)
the castle section. -/
def get_king_moves (b : Board) (atP : Pos) (piece : Nat) (gs : GameState) (commit : Bool) :
    List Move :=
  let moves := (get_king_candidates b atP piece).filter (fun m => can_register commit b gs m)
  if ¬ commit then moves
  else
    moves ++
      (king_castle_candidates b atP gs).filter (fun m => can_register commit b gs m)

/-- rules.rs `get_piece_moves`. -/
def get_piece_moves (b : Board) (atP : Pos) (gs : GameState) (commit : Bool) : List Move :=
  let p := get_square b atP
  if is_piece p SQ_P then get_pawn_moves b atP p gs commit
  else if is_piece p SQ_B then get_bishop_moves b atP p gs commit
  else if is_piece p SQ_N then get_knight_moves b atP p gs commit
  else if is_piece p SQ_R then get_rook_moves b atP p gs commit
  else if is_piece p SQ_Q then get_queen_moves b atP p gs commit
  else if is_piece p SQ_K then get_king_moves b atP p gs commit
  else []

/-- rules.rs `get_player_moves`: moves of every piece of the playing color, in
rank-major scan order. -/
def get_player_moves (b : Board) (gs : GameState) (commit : Bool) : List Move :=
  (List.range 8).flatMap (fun r =>
    (List.range 8).flatMap (fun f =>
      if is_empty b ((f : Int), (r : Int)) then []
      else if is_color (get_square b ((f : Int), (r : Int))) gs.color then
        get_piece_moves b ((f : Int), (r : Int)) gs commit
      else []))

/-- Board used for claim C4: white king on e1, white rook on h1, nothing
else. -/
def kingRookNoRightsBoard : Board :=
  set_square (set_square new_empty (pos ("e1")) SQ_WH_K) (pos ("h1")) SQ_WH_R

/-- Game state used for claim C4: white to move, NO castling rights. -/
def kingRookNoRightsState : GameState :=
  { color := SQ_WH, castling := 0, en_passant := none, halfmove := 0, fullmove := 1 }

-- engine.rs (old generation) material for claim C9.

/-- fen.rs `Fen`: the six FEN fields, unparsed. -/
structure Fen where
  placement : String
  color : String
  castling : String
  en_passant : String
  halfmove : String
  fullmove : String
deriving DecidableEq, Repr

/-- engine.rs `Node`: the engine's current board and game state. -/
structure Node where
  board : Board
  game_state : GameState
deriving DecidableEq, Repr

/-- Rust `str::parse::<i32>` as used by engine.rs: optional sign, one or more
ASCII digits, value within the `i32` range; anything else fails. -/
def parseI32 (s : String) : Option Int :=
  let signDigits : Int × List Char :=
    match s.toList with
    | '+' :: rest => (1, rest)
    | '-' :: rest => (-1, rest)
    | rest => (1, rest)
  if signDigits.2 = [] then none
  else if ¬ signDigits.2.all Char.isDigit then none
  else
    let v : Int :=
      signDigits.1 * ((signDigits.2.foldl (fun acc c => acc * 10 + (c.toNat - 48)) 0 : Nat) : Int)
    if -2147483648 ≤ v ∧ v ≤ 2147483647 then some v else none

/-- The per-character body of the castling loop of engine.rs `apply_fen`: OR
in the named right, ignore anything else. -/
def castling_char_step (c : Nat) (ch : Char) : Nat :=
  if ch = 'K' then c ||| CASTLING_WH_K
  else if ch = 'Q' then c ||| CASTLING_WH_Q
  else if ch = 'k' then c ||| CASTLING_BL_K
  else if ch = 'q' then c ||| CASTLING_BL_Q
  else c

/-- engine.rs `Engine::apply_fen`: replace the board from the placement field,
set the color (an empty color field panics on `unwrap`, and an unrecognized
letter leaves the color as it was), OR the named castling rights into the
current ones without resetting them, set the en-passant square, and parse the
two counters (a parse failure panics on `unwrap`). -/
def apply_fen (node : Node) (fen : Fen) : Option Node :=
  let board := new_from_fen fen.placement
  match fen.color.toList with
  | [] => none
  | c :: _ =>
    let color := if c = 'w' then SQ_WH else if c = 'b' then SQ_BL else node.game_state.color
    let castling := fen.castling.toList.foldl castling_char_step node.game_state.castling
    let ep := if fen.en_passant = "-" then none else some (pos fen.en_passant)
    match parseI32 fen.halfmove with
    | none => none
    | some halfmove =>
      match parseI32 fen.fullmove with
      | none => none
      | some fullmove =>
        some { board := board,
               game_state := { color := color, castling := castling, en_passant := ep,
                               halfmove := halfmove, fullmove := fullmove } }

/-- Engine node used by claim C9's witness: starting position, full rights. -/
def fullRightsNode : Node := { board := new, game_state := GameState.new }

/-- FEN record used by claim C9's witness: empty board, castling field `-`. -/
def dashFen : Fen :=
  { placement := "8/8/8/8/8/8/8/8", color := "w", castling := "-",
    en_passant := "-", halfmove := "0", fullmove := "1" }

/-- Result of `apply_fen fullRightsNode dashFen` (used by the witness): the
castling rights are still all set although the FEN named none. -/
def dashFenResult : Node :=
  { board := 0,
    game_state := { color := SQ_WH, castling := CASTLING_MASK, en_passant := none,
                    halfmove := 0, fullmove := 1 } }

end MB

end Vatu

-- DEFINITIONS-BELOW-MARKER (more embedded definitions are inserted above this line)

namespace Vatu

open BB

/-- C1: apply-then-unmake is not an identity on every reachable node and legal
move.  In the position reached by 1.Nf3 a6 2.e3 b6 3.Be2 c6 4.Kf1 d6 5.g3 e6
6.Kg2 f6 7.Qe1 g6 the white queen legally moves e1 to g1; `Move::apply_to`
treats it as an ordinary move (the mover is not a king), but `Move::unmake`
recognizes the e1-g1 square pair as a king-side castle and tries to move a
rook from f1, an empty square, so the unmake panics (modelled as `none`)
instead of restoring the node. -/
theorem c1_unmake_not_inverse_of_apply :
    queenOnE1Board.get_piece_on E1 = some QUEEN ∧
    ((Move.new E1 G1).apply_to queenOnE1Board queenOnE1State).isSome = true ∧
    ((Move.new E1 G1).apply_to queenOnE1Board queenOnE1State).bind
        (fun r => r.1.unmake r.2.1 r.2.2) = none := by
  decide

/-- C5 counterexample: the move a1a8 touches both the A1 and the A8 corner, but
after `Move::apply_to` the black queen-side right (the right of the rook that
starts on a8) is still set — the else-if chain stops at the first matching
corner, contradicting the claim that both corners' rights are cleared. -/
theorem c5_corner_to_corner_keeps_second_right :
    ((Move.new A1 A8).apply_to rookCornersBoard GameState.new).map
        (fun r => r.2.2.castling &&& CASTLE_BL_Q) = some CASTLE_BL_Q := by
  decide

/-- C5 (amended): after `Move::apply_to`, the castling rights are the old
rights with two masks cleared: the whole color mask when the source is E1 or
E8, and the right of the FIRST corner square the move touches in the order
A1, H1, A8, H8 — later corners in that order are left untouched, so a move
connecting two corners clears only the first one's right. -/
theorem c5_castling_rights_update (m : Move) (b : Board) (gs : GameState)
    (m' : Move) (b' : Board) (gs' : GameState)
    (hcast : gs.castling < 256)
    (h : m.apply_to b gs = some (m', b', gs')) :
    gs'.castling = gs.castling &&&
      not8 ((if m.source = E1 then CASTLE_WH_MASK
             else if m.source = E8 then CASTLE_BL_MASK else 0) |||
            (if m.source = A1 ∨ m.dest = A1 then CASTLE_WH_Q
             else if m.source = H1 ∨ m.dest = H1 then CASTLE_WH_K
             else if m.source = A8 ∨ m.dest = A8 then CASTLE_BL_Q
             else if m.source = H8 ∨ m.dest = H8 then CASTLE_BL_K
             else 0)) := by
  have hmod : gs.castling &&& 255 = gs.castling := by
    have h2 : gs.castling &&& (2 ^ 8 - 1) = gs.castling % 2 ^ 8 :=
      Nat.and_pow_two_sub_one_eq_mod gs.castling 8
    norm_num at h2
    rw [h2]
    exact Nat.mod_eq_of_lt hcast
  simp only [Move.apply_to] at h
  split at h
  · exact absurd h (by simp)
  · simp only [Option.some.injEq, Prod.mk.injEq] at h
    obtain ⟨h1, h2, h3⟩ := h
    subst h3
    dsimp only
    split_ifs <;>
      first
        | ((rw [Nat.land_assoc]; congr 1) <;> decide)
        | (congr 1 <;> decide)
        | (rw [show not8 (0 ||| 0) = 255 from by decide]; exact hmod.symm)
        | rfl

/-- C5 witness: the amended castling-rights update evaluated on the concrete
move a1a8 applied to a board with rooks on a1 and a8. -/
theorem c5_castling_rights_update_witness :
    rookCornersStateApplied.castling =
      GameState.new.castling &&&
        not8 ((if (Move.new A1 A8).source = E1 then CASTLE_WH_MASK
               else if (Move.new A1 A8).source = E8 then CASTLE_BL_MASK else 0) |||
              (if (Move.new A1 A8).source = A1 ∨ (Move.new A1 A8).dest = A1 then CASTLE_WH_Q
               else if (Move.new A1 A8).source = H1 ∨ (Move.new A1 A8).dest = H1 then CASTLE_WH_K
               else if (Move.new A1 A8).source = A8 ∨ (Move.new A1 A8).dest = A8 then CASTLE_BL_Q
               else if (Move.new A1 A8).source = H8 ∨ (Move.new A1 A8).dest = H8 then CASTLE_BL_K
               else 0)) :=
  c5_castling_rights_update (Move.new A1 A8) rookCornersBoard GameState.new
    rookCornersMoveApplied rookCornersBoardApplied rookCornersStateApplied
    (by decide) (by decide)

/-- C8 counterexample: a move whose `capture` field is filled (as it is after
being applied) does not round-trip through the UCI string codec — the parsed
move always has `capture = none`. -/
theorem c8_capture_field_not_roundtripped :
    capturedPawnMove.to_uci_bytes.bind Move.from_uci_bytes ≠ some capturedPawnMove ∧
    capturedPawnMove.to_uci_bytes.bind Move.from_uci_bytes = some (Move.new A1 D4) := by
  decide

/-- C8 (amended): `Move::from_uci_string` inverts `Move::to_uci_string` for
every move with in-range squares, a promotion among queen, bishop, knight and
rook (or none), an empty `capture` field and cleared `old_castles` — i.e. for
moves as constructed, before they are applied. -/
theorem c8_uci_roundtrip (m : Move)
    (hs0 : 0 ≤ m.source) (hs1 : m.source < 64)
    (hd0 : 0 ≤ m.dest) (hd1 : m.dest < 64)
    (hp : m.promotion = none ∨ m.promotion = some QUEEN ∨ m.promotion = some BISHOP ∨
          m.promotion = some KNIGHT ∨ m.promotion = some ROOK)
    (hc : m.capture = none) (ho : m.old_castles = 0) :
    m.to_uci_bytes.bind Move.from_uci_bytes = some m := by
  have key : ∀ s : Int, sq_file s * 8 + sq_rank s = s := by
    intro s
    have h := Int.tdiv_add_tmod s 8
    simp only [sq_file, sq_rank]
    linarith
  obtain ⟨s, d, p, cap, oc⟩ := m
  simp only at hc ho
  subst hc
  subst ho
  rcases hp with hp | hp | hp | hp | hp <;>
    simp only at hp <;>
    subst hp <;>
    simp [Move.to_uci_bytes, Move.from_uci_bytes, Option.bind, key,
      QUEEN, BISHOP, KNIGHT, ROOK]

/-- C8 witness: the round-trip theorem evaluated on the concrete promotion
move h7h8n. -/
theorem c8_uci_roundtrip_witness :
    (Move.new_promotion 62 63 KNIGHT).to_uci_bytes.bind Move.from_uci_bytes =
      some (Move.new_promotion 62 63 KNIGHT) :=
  c8_uci_roundtrip (Move.new_promotion 62 63 KNIGHT) (by decide) (by decide)
    (by decide) (by decide) (Or.inr (Or.inr (Or.inr (Or.inl rfl)))) rfl rfl

end Vatu

namespace Vatu

namespace MB

/-- With `commit == false` the legality guard accepts every move. -/
theorem can_register_false (b : Board) (gs : GameState) (m : Move) :
    can_register false b gs m = true := rfl

/-- Filtering by the non-committing guard is the identity. -/
theorem filter_can_register_false (b : Board) (gs : GameState) (l : List Move) :
    l.filter (fun m => can_register false b gs m) = l := by
  simp [can_register_false]

/-- `get_player_moves` with `commit == false` is exactly the candidate
sequence: this certifies that `is_attacked`, defined over `player_candidates`,
agrees with the source's call of `get_player_moves(board, enemy, false)`. -/
theorem get_player_moves_false_eq (b : Board) (gs : GameState) :
    get_player_moves b gs false = player_candidates b gs := by
  unfold get_player_moves player_candidates
  simp only [get_piece_moves, get_piece_candidates, get_pawn_moves, get_bishop_moves,
    get_knight_moves, get_rook_moves, get_queen_moves, get_king_moves,
    filter_can_register_false]
  simp

/-- Every move emitted by `get_piece_moves` while committing has passed the
legality filter. -/
theorem is_illegal_false_of_mem_piece_moves (b : Board) (gs : GameState) (p : Pos) (m : Move)
    (hm : m ∈ get_piece_moves b p gs true) : is_illegal b gs m = false := by
  simp only [get_piece_moves, get_pawn_moves, get_bishop_moves, get_knight_moves,
    get_rook_moves, get_queen_moves, get_king_moves, not_true, if_false] at hm
  have hreg : can_register true b gs m = true := by
    repeat' split at hm
    all_goals
      first
        | (exact (List.mem_filter.mp hm).2)
        | (rcases List.mem_append.mp hm with hm | hm <;> exact (List.mem_filter.mp hm).2)
        | (exact absurd hm (List.not_mem_nil m))
  simpa [can_register] using hreg

/-- Every move emitted by `get_player_moves` while committing has passed the
legality filter. -/
theorem is_illegal_false_of_mem_player_moves (b : Board) (gs : GameState) (m : Move)
    (hm : m ∈ get_player_moves b gs true) : is_illegal b gs m = false := by
  unfold get_player_moves at hm
  rcases List.mem_flatMap.mp hm with ⟨r, _, hm⟩
  rcases List.mem_flatMap.mp hm with ⟨f, _, hm⟩
  split at hm
  · exact absurd hm (by simp)
  · split at hm
    · exact is_illegal_false_of_mem_piece_moves b gs _ m hm
    · exact absurd hm (by simp)

end MB

open MB in
/-- C2: every move returned by `get_player_moves` with `commit == true` leaves
the mover's king — at the move's destination when the king itself moved — on a
square not attacked by the opponent (attacked meaning: targeted by some
non-committed enemy move on the board after the move is applied, which is the
code's attack oracle). -/
theorem c2_generated_moves_leave_king_unattacked (b : MB.Board) (gs : MB.GameState)
    (m : MB.Move) (hm : m ∈ get_player_moves b gs true) (kp : MB.Pos)
    (hk : find_king b gs.color = some kp) :
    is_attacked (apply_move_to_board b m) gs (if m.1 = kp then m.2.1 else kp) = false := by
  have h := is_illegal_false_of_mem_player_moves b gs m hm
  unfold is_illegal at h
  rw [hk] at h
  simpa using h

open MB in
/-- C2 witness: the pawn double-push e2e4 from the starting position leaves
the white king on e1 unattacked. -/
theorem c2_generated_moves_leave_king_unattacked_witness :
    is_attacked (apply_move_to_board MB.new (((4 : Int), (1 : Int)), ((4 : Int), (3 : Int)), none))
        MB.GameState.new
        (if (((4 : Int), (1 : Int)) : MB.Pos) = (((4 : Int), (0 : Int)) : MB.Pos)
         then (((4 : Int), (3 : Int)) : MB.Pos) else (((4 : Int), (0 : Int)) : MB.Pos)) = false :=
  c2_generated_moves_leave_king_unattacked MB.new MB.GameState.new
    (((4 : Int), (1 : Int)), ((4 : Int), (3 : Int)), none) (by decide)
    (((4 : Int), (0 : Int))) (by decide)

open MB in
/-- C3: from the standard starting position with white to move and full
castling rights, `get_player_moves` with `commit == true` returns exactly 20
moves — 16 moves of pawns and 4 moves of knights. -/
theorem c3_startpos_twenty_moves :
    (get_player_moves MB.new MB.GameState.new true).length = 20 ∧
    ((get_player_moves MB.new MB.GameState.new true).filter
        (fun m => is_piece (get_square MB.new m.1) SQ_P)).length = 16 ∧
    ((get_player_moves MB.new MB.GameState.new true).filter
        (fun m => is_piece (get_square MB.new m.1) SQ_N)).length = 4 := by
  decide

open MB in
/-- C4: on a board with only a white king on e1 (its back rank, not in check)
and a white rook on h1, and a game state whose castling rights are all
cleared, the generator still emits the king-side castle e1g1 — twice, once per
castling-side loop iteration, because the availability test
`((castling & color_mask) | side_mask) != 0` is always true and the pushed
move is always the king-side one.  This contradicts the claim that a castle is
emitted only when the corresponding right is set. -/
theorem c4_castle_emitted_without_right :
    kingRookNoRightsState.castling = 0 ∧
    is_attacked kingRookNoRightsBoard kingRookNoRightsState (pos ("e1")) = false ∧
    (pos ("e1"), pos ("g1"), (none : Option Nat)) ∈
      get_player_moves kingRookNoRightsBoard kingRookNoRightsState true ∧
    (get_player_moves kingRookNoRightsBoard kingRookNoRightsState true).count
        (pos ("e1"), pos ("g1"), (none : Option Nat)) = 2 := by
  decide

namespace MB

/-- One castling character keeps every bit already set. -/
theorem castling_char_step_keeps_bits (acc : Nat) (ch : Char) (i : Nat)
    (h : acc.testBit i = true) : (castling_char_step acc ch).testBit i = true := by
  unfold castling_char_step
  split_ifs <;> simp [Nat.testBit_lor, h]

/-- Folding the castling field over the current rights keeps every bit that
was already set. -/
theorem castling_foldl_keeps_bits (l : List Char) (acc : Nat) (i : Nat)
    (h : acc.testBit i = true) :
    (l.foldl castling_char_step acc).testBit i = true := by
  induction l generalizing acc with
  | nil => simpa using h
  | cons c rest ih => exact ih _ (castling_char_step_keeps_bits acc c i h)

end MB

open MB in
/-- C9: `Engine::apply_fen` never clears a castling right: every right set
before the call is still set afterwards (the old rights are a bitwise submask
of the new ones), and a FEN whose castling field is `-` leaves the rights
exactly as they were instead of clearing them. -/
theorem c9_apply_fen_only_ors_castling (node : MB.Node) (fen : MB.Fen) (result : MB.Node)
    (h : apply_fen node fen = some result) :
    (node.game_state.castling &&& result.game_state.castling
        = node.game_state.castling) ∧
    (fen.castling = "-" → result.game_state.castling = node.game_state.castling) := by
  have hc : result.game_state.castling
      = fen.castling.toList.foldl castling_char_step node.game_state.castling := by
    unfold apply_fen at h
    rcases hcv : fen.color.toList with _ | ⟨c, rest⟩ <;> rw [hcv] at h
    · cases h
    · dsimp only at h
      rcases hh : parseI32 fen.halfmove with _ | hv <;> rw [hh] at h
      · cases h
      · rcases hf : parseI32 fen.fullmove with _ | fv <;> rw [hf] at h
        · cases h
        · simp only [Option.some.injEq] at h
          subst h
          rfl
  constructor
  · apply Nat.eq_of_testBit_eq
    intro i
    rw [Nat.testBit_land, hc]
    cases hb : node.game_state.castling.testBit i
    · simp
    · simp [castling_foldl_keeps_bits _ _ _ hb]
  · intro hdash
    rw [hc, hdash]
    rfl

open MB in
/-- C9 witness: applying an all-empty FEN with castling field `-` to an engine
node holding full castling rights leaves all four rights set. -/
theorem c9_apply_fen_only_ors_castling_witness :
    (fullRightsNode.game_state.castling &&& dashFenResult.game_state.castling
        = fullRightsNode.game_state.castling) ∧
    (dashFen.castling = "-" →
      dashFenResult.game_state.castling = fullRightsNode.game_state.castling) :=
  c9_apply_fen_only_ors_castling fullRightsNode dashFen dashFenResult (by rfl)

open BB in
/-- C6: on a board with two white pawns doubled on the d-file (and therefore
also two isolated pawns by the spec's definition), `BoardStats::compute`
leaves `num_doubled_pawns` and `num_isolated_pawns` at 0 — the whole
pawn-structure block is commented out in the source (its own test
`test_compute_stats` expects 2 doubled pawns here), so the counters never
match the spec's definitions. -/
theorem c6_pawn_structure_counters_stay_zero :
    (BoardStats.compute doubledPawnsBoard GameState.new).map
        (fun s => (s.num_doubled_pawns, s.num_isolated_pawns, s.num_backward_pawns)) =
      some (0, 0, 0) ∧
    specNumDoubledPawns doubledPawnsBoard WHITE = 2 ∧
    specNumIsolatedPawns doubledPawnsBoard WHITE = 2 := by
  decide

open BB in
/-- C7 counterexample: with `move_time = -2` (negative but not the `-1`
sentinel) and more than two minutes on the white clock, `set_limits` uses
`-2` as the time budget instead of the 60000 ms the claim's table demands for
every negative `move_time`. -/
theorem c7_negative_movetime_used_directly :
    negMoveTimeParams.move_time < 0 ∧
    negMoveTimeParams.move_time ≠ -1 ∧
    negMoveTimeParams.white_time > 2 * 60 * 1000 ∧
    (set_limits negMoveTimeParams WHITE).2 = -2 ∧
    (set_limits negMoveTimeParams WHITE).2 ≠ 60 * 1000 := by
  decide

open BB in
/-- C7 (amended): the time budget is `move_time` whenever that field differs
from the `-1` sentinel (not merely when it is non-negative); only at exactly
`-1` does the clock-based ladder apply: over two minutes left gives 60000 ms,
a positive clock gives a quarter of it plus the side's increment (stated here
under no-overflow side conditions; the `i32` sum wraps otherwise), and an
empty clock gives the `i32::MAX` sentinel. -/
theorem c7_time_budget (args : AnalysisParams) (color : Color) :
    (args.move_time ≠ -1 → (set_limits args color).2 = args.move_time) ∧
    (args.move_time = -1 →
      (if is_white color then args.white_time else args.black_time) > 2 * 60 * 1000 →
      (set_limits args color).2 = 60 * 1000) ∧
    (args.move_time = -1 →
      0 < (if is_white color then args.white_time else args.black_time) →
      (if is_white color then args.white_time else args.black_time) ≤ 2 * 60 * 1000 →
      -2147483648 ≤ (if is_white color then args.white_time else args.black_time).tdiv 4 +
        (if is_white color then args.white_inc else args.black_inc) →
      (if is_white color then args.white_time else args.black_time).tdiv 4 +
        (if is_white color then args.white_inc else args.black_inc) ≤ 2147483647 →
      (set_limits args color).2 =
        (if is_white color then args.white_time else args.black_time).tdiv 4 +
          (if is_white color then args.white_inc else args.black_inc)) ∧
    (args.move_time = -1 →
      (if is_white color then args.white_time else args.black_time) ≤ 0 →
      (set_limits args color).2 = 2147483647) := by
  unfold set_limits wrap32
  refine ⟨?_, ?_, ?_, ?_⟩ <;> intro h1 <;> simp only [h1] <;> split_ifs <;>
    (try dsimp only) <;>
    first
      | rfl
      | omega
      | (intro ha hb
         omega)
      | (intro ha hb hc hd
         omega)

open BB in
/-- C7 witness: the amended budget rule evaluated with `move_time = -2`. -/
theorem c7_time_budget_witness :
    (set_limits negMoveTimeParams WHITE).2 = negMoveTimeParams.move_time :=
  (c7_time_budget negMoveTimeParams WHITE).1 (by decide)

namespace BB

/-- The frame is reflexive. -/
theorem preserves_frame_refl (a : Analyzer) : preserves_frame a a :=
  ⟨rfl, rfl, rfl, rfl⟩

/-- The frame is transitive. -/
theorem preserves_frame_trans {a b c : Analyzer}
    (h1 : preserves_frame a b) (h2 : preserves_frame b c) : preserves_frame a c :=
  ⟨h2.1.trans h1.1, h2.2.1.trans h1.2.1, h2.2.2.1.trans h1.2.2.1, h2.2.2.2.trans h1.2.2.2⟩

/-- Updating only the visit counters preserves the frame. -/
theorem preserves_frame_counters (a : Analyzer) (n m : Nat) :
    preserves_frame a { a with num_nodes := n, num_nodes_in_second := m } :=
  ⟨rfl, rfl, rfl, rfl⟩

/-- The move loop of `negamax` preserves the frame, provided the recursive
calls at the given fuel do. -/
theorem loop_frame_of (stop tick : Nat → Bool) (fuel : Nat)
    (hn : ∀ a node alpha beta depth r,
      negamax stop tick fuel a node alpha beta depth = some r → preserves_frame a r.1) :
    ∀ (moves : List Move) a node alpha beta depth best_score best_move r,
      negamax_loop stop tick fuel a node alpha beta depth moves best_score best_move = some r →
      preserves_frame a r.1 := by
  intro moves
  induction moves with
  | nil =>
    intro a node alpha beta depth best_score best_move r h
    unfold negamax_loop at h
    simp only [Option.some.injEq] at h
    subst h
    exact preserves_frame_refl a
  | cons m rest ih =>
    intro a node alpha beta depth best_score best_move r h
    unfold negamax_loop at h
    rcases happ : m.apply_to node.board node.game_state with _ | ⟨m1, b2, gs2⟩ <;>
      rw [happ] at h
    · simp at h
    · simp only [Option.bind_eq_bind, Option.some_bind] at h
      rcases hneg : negamax stop tick fuel a { board := b2, game_state := gs2 }
          beta.neg alpha.neg (depth + 1) with _ | ⟨a2, s, bm⟩ <;>
        rw [hneg] at h
      · simp at h
      · rw [Option.some_bind] at h
        have hfa2 : preserves_frame a a2 :=
          hn a { board := b2, game_state := gs2 } beta.neg alpha.neg (depth + 1) (a2, s, bm) hneg
        repeat' split at h
        all_goals
          first
            | (simp only [Option.some.injEq] at h; subst h; exact hfa2)
            | (exact preserves_frame_trans hfa2 (ih _ node _ beta depth _ _ r h))

/-- `negamax` preserves the frame for every fuel. -/
theorem negamax_frame (stop tick : Nat → Bool) :
    ∀ (fuel : Nat) a node alpha beta depth r,
      negamax stop tick fuel a node alpha beta depth = some r → preserves_frame a r.1 := by
  intro fuel
  induction fuel with
  | zero =>
    intro a node alpha beta depth r h
    unfold negamax at h
    rcases hcs : node.compute_stats with _ | st <;> rw [hcs] at h
    · simp at h
    · simp only [Option.map_some', Option.some.injEq] at h
      subst h
      exact preserves_frame_counters a _ _
  | succ f ih =>
    intro a node alpha beta depth r h
    unfold negamax at h
    dsimp only at h
    repeat' split at h
    all_goals
      first
        | (exact Option.noConfusion h)
        | (rcases hcs : node.compute_stats with _ | st <;> rw [hcs] at h <;>
            first
              | (rw [Option.map_none'] at h
                 exact Option.noConfusion h)
              | (simp only [Option.map_some', Option.some.injEq] at h
                 subst h
                 exact preserves_frame_counters a _ _))
        | (refine preserves_frame_trans ?_
              (loop_frame_of stop tick f ih _ _ node alpha beta depth _ _ r h)
           exact ⟨rfl, rfl, rfl, rfl⟩)

end BB

open BB in
/-- C10: `Analyzer::negamax` never mutates the analyzer's stored node — every
candidate move is applied to a fresh clone — and leaves the debug flag and the
search limits untouched; only the visit counters may change.  (In the
embedding the argument node is passed by value, so its immutability is
inherent; the analyzer state threads through the recursion and is where a
mutation would show.) -/
theorem c10_negamax_preserves_node (stop tick : Nat → Bool) (fuel : Nat) (a : BB.Analyzer)
    (node : BB.Node) (alpha beta : BB.F32) (depth : Nat) (r : BB.Analyzer × BB.F32 × Option BB.Move)
    (h : negamax stop tick fuel a node alpha beta depth = some r) :
    r.1.node = a.node ∧ r.1.debug = a.debug ∧ r.1.max_depth = a.max_depth ∧
      r.1.time_limit = a.time_limit :=
  negamax_frame stop tick fuel a node alpha beta depth r h

open BB in
/-- C10 witness: a one-node search from the starting position (the stop
oracle fires immediately) returns the analyzer with only its counters
changed. -/
theorem c10_negamax_preserves_node_witness :
    ({ idleAnalyzer with num_nodes := 1, num_nodes_in_second := 1 } : BB.Analyzer).node
        = idleAnalyzer.node ∧
    ({ idleAnalyzer with num_nodes := 1, num_nodes_in_second := 1 } : BB.Analyzer).debug
        = idleAnalyzer.debug ∧
    ({ idleAnalyzer with num_nodes := 1, num_nodes_in_second := 1 } : BB.Analyzer).max_depth
        = idleAnalyzer.max_depth ∧
    ({ idleAnalyzer with num_nodes := 1, num_nodes_in_second := 1 } : BB.Analyzer).time_limit
        = idleAnalyzer.time_limit :=
  c10_negamax_preserves_node (fun _ => true) (fun _ => false) 1 idleAnalyzer startNode
    F32.negInf F32.posInf 0
    ({ idleAnalyzer with num_nodes := 1, num_nodes_in_second := 1 },
      evaluate (startStats, startStats), none)
    (by
      simp only [negamax, should_stop_search, Bool.true_or, if_true]
      rw [show startNode.compute_stats = some (startStats, startStats) from by decide]
      rfl)

end Vatu
